import Mathlib

/-!
Verification development for the SJ Tube backend service (`main.py`).

The definitions below are a shallow embedding of the task-lifecycle and
progress-tracking subsystem: the helpers (`_fmt_bytes`, `_add_to_history`),
the progress hook, the background worker, and the HTTP facade operations
that the claims refer to.  Python floats are modelled as rationals: every
arithmetic operation performed by the code on the relevant value ranges
(byte counts below `2^53`, divisions by powers of two, `round(x, 1)`,
`f-string` rendering with two decimals) is exact in double precision, so
the rational model computes the same values.  Python `int` is modelled as
`Int`, `None`-able values as `Option`.
-/

/-- Executable floor of a rational (kernel-reducible, unlike the `⌊·⌋`
instance route). -/
def ratFloor (q : ℚ) : ℤ := q.num / q.den

/-- Round-half-even of a rational to an integer: the rounding mode used by
Python's `round` builtin and by `format`/f-string rendering of exactly
representable values. -/
def rhe (q : ℚ) : ℤ :=
  let f : ℤ := ratFloor q
  let r : ℚ := q - f
  if r < 1/2 then f
  else if 1/2 < r then f + 1
  else if f % 2 = 0 then f else f + 1

/-- Python `round(q, 1)` on an exactly-represented value. -/
def round1 (q : ℚ) : ℚ := (rhe (10 * q) : ℚ) / 10

/-- Python `int(q)` (truncation toward zero) on an exactly-represented value. -/
def pyInt (q : ℚ) : ℤ := if 0 ≤ q then ratFloor q else -ratFloor (-q)

/-- Python `f"{n:02d}"`: zero-pad a (one-digit, non-negative) integer to
width two; wider or negative values print unpadded. -/
def pad2 (n : ℤ) : String := if 0 ≤ n ∧ n < 10 then "0" ++ toString n else toString n

/-- Python `f"{v:.2f}"` on an exactly-represented non-negative value:
round-half-even at two decimals, then print with exactly two fraction
digits. -/
def fmt2 (v : ℚ) : String :=
  let m := rhe (100 * v)
  toString (m / 100) ++ "." ++ pad2 (m % 100)

/-- The unit tiers of `_fmt_bytes` (`main.py` line 90). -/
def units : List String := ["B", "KiB", "MiB", "GiB", "TiB"]

/-- The `while v >= 1024 and i < len(units) - 1` loop of `_fmt_bytes`
(`main.py` lines 93-95).  The fuel argument only bounds the iteration
count; since `i` starts at `0`, is incremented on every pass and the guard
requires `i < 4`, the real loop runs at most four times, so fuel `4` is
exact. -/
def fmtLoop : Nat → ℚ → Nat → ℚ × Nat
  | 0, v, i => (v, i)
  | fuel + 1, v, i =>
    if 1024 ≤ v ∧ i < 4 then fmtLoop fuel (v / 1024) (i + 1) else (v, i)

/-- `_fmt_bytes` (`main.py` lines 86-98): human-readable byte size. -/
def _fmt_bytes : Option ℤ → String
  | none => "?"
  | some n =>
    if n < 0 then "?"
    else
      let p := fmtLoop 4 (n : ℚ) 0
      if p.2 = 0 then toString (pyInt p.1) ++ " " ++ units.getD p.2 ""
      else fmt2 p.1 ++ " " ++ units.getD p.2 ""

/-- The `(value, unit-index)` pair produced by `_fmt_bytes` for a
non-negative size: the state of `v`/`i` after the loop. -/
def fmt_pair (n : ℤ) : ℚ × ℕ := fmtLoop 4 (n : ℚ) 0

/-- The numeric value printed by `_fmt_bytes (some n)` for `n ≥ 0`: `int(v)`
in the first tier, the two-decimal rounded value in higher tiers. -/
def fmt_val (n : ℤ) : ℚ :=
  if (fmt_pair n).2 = 0 then (pyInt (fmt_pair n).1 : ℚ)
  else (rhe (100 * (fmt_pair n).1) : ℚ) / 100

/-!  ## Data model: task records and raw progress events  -/

/-- The status record stored in the in-memory task registry
(`tasks: dict[str, dict]`, written only through `_set_task`).  Fields mirror
the dict written by `_progress_hook` and `_run_download_task` and the
`TaskStatus` schema of `models.py`. -/
structure TaskRecord where
  status : String
  progress : ℚ
  speed : Option String
  eta : Option String
  filename : Option String
  error : Option String
deriving DecidableEq, Repr

/-- A raw yt-dlp progress event as read by `_progress_hook`: the `d` dict's
`status`, `filename`, `info_dict._filename`, byte counters, `speed` and
`eta` entries.  `none` models an absent key or (for `speed`/`eta`) a
non-numeric value, mirroring the `isinstance` guards. -/
structure RawEvent where
  status : String
  filename : Option String := none
  info_filename : Option String := none
  downloaded_bytes : Option ℚ := none
  total_bytes : Option ℚ := none
  total_bytes_estimate : Option ℚ := none
  speed : Option ℚ := none
  eta : Option ℚ := none
deriving DecidableEq, Repr

/-- Python's falsy-`or` on an optional number: `a or b` where `None` and `0`
are falsy. -/
def pyOrQ (a : Option ℚ) (b : ℚ) : ℚ :=
  match a with
  | some x => if x = 0 then b else x
  | none => b

/-- Python's falsy-`or` on an optional string: `a or b` where `None` and `""`
are falsy. -/
def pyOrS (a : Option String) (b : String) : String :=
  match a with
  | some s => if s = "" then b else s
  | none => b

/-- Split a character list at every `'/'` (Python `str.split("/")`,
which always yields at least one piece and keeps empty pieces). -/
def splitSlash : List Char → List (List Char)
  | [] => [[]]
  | c :: rest =>
    match splitSlash rest with
    | [] => [[c]]
    | h :: t => if c = '/' then [] :: h :: t else (c :: h) :: t

/-- The pieces of a POSIX path string between slashes. -/
def pathPieces (s : String) : List String := (splitSlash s.data).map String.mk

/-- `os.path.basename` on a POSIX path: everything after the last slash
(`p[p.rfind("/") + 1 :]`), possibly empty. -/
def basename (p : String) : String := (pathPieces p).getLastD ""

/-- `downloaded = d.get("downloaded_bytes") or 0` (`main.py` line 213). -/
def pyDownloaded (ev : RawEvent) : ℚ := pyOrQ ev.downloaded_bytes 0

/-- `total = d.get("total_bytes") or d.get("total_bytes_estimate") or 0`
(`main.py` line 214). -/
def pyTotal (ev : RawEvent) : ℚ := pyOrQ ev.total_bytes (pyOrQ ev.total_bytes_estimate 0)

/-- The filename computed at the top of `_progress_hook` (lines 208-210):
`os.path.basename(d.get("filename") or info.get("_filename") or "output")`. -/
def hookFilename (ev : RawEvent) : String :=
  basename (pyOrS ev.filename (pyOrS ev.info_filename "output"))

/-- `_progress_hook` (`main.py` lines 204-247) as a pure translation from a
raw event to the record written into the registry via `_set_task` (a full
overwrite).  `none` means the hook writes nothing (any phase other than
`downloading`/`finished`). -/
def _progress_hook (ev : RawEvent) : Option TaskRecord :=
  if ev.status = "downloading" then
    let downloaded := pyDownloaded ev
    let total := pyTotal ev
    let progress : ℚ := if 0 < total then min (downloaded / total * 100) (999/10) else 0
    let speed_str : Option String :=
      match ev.speed with
      | some s => if 0 < s then some (_fmt_bytes (some (pyInt s)) ++ "/s") else none
      | none => none
    let eta_str : Option String :=
      match ev.eta with
      | some e => some (pad2 (pyInt e / 60) ++ ":" ++ pad2 (pyInt e % 60))
      | none => none
    some { status := "downloading", progress := round1 progress, speed := speed_str,
           eta := eta_str, filename := some (hookFilename ev), error := none }
  else if ev.status = "finished" then
    some { status := "processing", progress := 999/10, speed := none, eta := none,
           filename := some (hookFilename ev), error := none }
  else
    none

/-- One registry cell under a sequence of hook invocations: a `some` result
of `_progress_hook` fully overwrites the cell, a `none` result leaves it. -/
def applyHook (cur : Option TaskRecord) (ev : RawEvent) : Option TaskRecord :=
  match _progress_hook ev with
  | some r => some r
  | none => cur

/-- The registry cell after a list of progress events. -/
def runHook (cur : Option TaskRecord) (events : List RawEvent) : Option TaskRecord :=
  events.foldl applyHook cur

/-!  ## The background worker  -/

/-- The record written at the top of `_run_download_task` (lines 253-260). -/
def pendingRecord : TaskRecord :=
  { status := "pending", progress := 0, speed := none, eta := none,
    filename := none, error := none }

/-- The record written on successful completion (lines 326-333); `scan` is
the `(latest_file, size)` found by the most-recent-mtime directory scan, or
`none` when the directory was empty. -/
def doneRecord (scan : Option (String × ℤ)) : TaskRecord :=
  { status := "done", progress := 100, speed := none, eta := none,
    filename := scan.map Prod.fst, error := none }

/-- The record written by the `except` clause (lines 335-343): `str(e)` is
captured verbatim in `error`. -/
def errorRecord (msg : String) : TaskRecord :=
  { status := "error", progress := 0, speed := none, eta := none,
    filename := none, error := some msg }

/-- Outcome of the blocking fetch plus the post-fetch directory scan:
either success (with the scan result handed to the retention manager) or a
raised failure carrying its message.  Progress events delivered before the
failure point are listed separately. -/
inductive FetchOutcome where
  | success (scan : Option (String × ℤ))
  | failure (msg : String)
deriving DecidableEq, Repr

/-- `_run_download_task` (`main.py` lines 250-343), viewed as the ordered
sequence of registry writes it performs for its task id: the `pending`
record first (inside the `try`), then one write per progress event the
external collaborator delivers (routed through `_progress_hook`; events of
other phases write nothing), and finally the `done` record (success path,
after the scan/history/delete-scheduling side effects) or the `error`
record (the `except Exception` clause, reached on any failure raised by the
fetch call or the scan).  The function is total: the `except` clause means
no exception escapes the worker. -/
def _run_download_task (events : List RawEvent) (outcome : FetchOutcome) : List TaskRecord :=
  pendingRecord ::
    (events.filterMap _progress_hook ++
      [match outcome with
       | .success scan => doneRecord scan
       | .failure msg => errorRecord msg])

/-!  ## History log  -/

/-- One entry of the in-memory `download_history` list. -/
structure HistoryEntry where
  filename : String
  size : ℤ
  size_human : String
  modified : String
deriving DecidableEq, Repr

/-- The dict inserted by `_add_to_history` (lines 114-119); `now` stands for
the `datetime.now(timezone.utc).isoformat()` timestamp. -/
def mkHistoryEntry (filename : String) (size : ℤ) (now : String) : HistoryEntry :=
  { filename := filename, size := size, size_human := _fmt_bytes (some size), modified := now }

/-- `_add_to_history` (`main.py` lines 111-122): insert at the front, then
`pop()` the last entry whenever the length exceeds 100. -/
def _add_to_history (history : List HistoryEntry) (filename : String) (size : ℤ)
    (now : String) : List HistoryEntry :=
  let h := mkHistoryEntry filename size now :: history
  if 100 < h.length then h.dropLast else h

/-- The history log produced by a sequence of insertions starting from the
empty log the server boots with. -/
def historyFold (ops : List (String × ℤ × String)) : List HistoryEntry :=
  ops.foldl (fun acc op => _add_to_history acc op.1 op.2.1 op.2.2) []

/-!  ## Filesystem paths and the facade operations on files  -/

/-- Lexical resolution of path segments against an (already resolved)
absolute base path, modelling `Path.resolve()` in a symlink-free directory:
`..` pops a segment, `.` and empty segments are dropped. -/
def resolveSegs : List String → List String → List String
  | acc, [] => acc
  | acc, s :: rest =>
    if s = ".." then resolveSegs acc.dropLast rest
    else if s = "." ∨ s = "" then resolveSegs acc rest
    else resolveSegs (acc ++ [s]) rest

/-- `str(path)` of an absolute path given by its segments. -/
def renderPath : List String → String
  | [] => "/"
  | [s] => "/" ++ s
  | s :: t :: rest => "/" ++ s ++ renderPath (t :: rest)

/-- Python `str.startswith`. -/
def startswith (s pre : String) : Bool := pre.data.isPrefixOf s.data

/-- `(Path(DOWNLOAD_DIR).resolve() / filename).resolve()` (lines 405/419):
`pathlib`'s `/` replaces the base when the right operand is absolute;
otherwise the segments are joined and the result resolved lexically. -/
def resolvedJoin (dir : List String) (filename : String) : List String :=
  if startswith filename "/" then resolveSegs [] (pathPieces filename)
  else resolveSegs dir (pathPieces filename)

/-- The path `p` designates the directory `dir` itself or a descendant of
it: `dir` is a segment-wise path prefix of `p`.  This is the actual
"remains within the output directory" property, as opposed to the string
prefix test the code performs. -/
def isWithin (dir p : List String) : Bool := dir.isPrefixOf p

/-- Result of the `DELETE /api/history/{filename}` handler: the history
log and the set of files on disk after the call, plus the HTTP response
(`Except` carries the error status code). -/
structure DeleteResult where
  history : List HistoryEntry
  fs : List (List String)
  response : Except Nat String

/-- `delete_file` (`main.py` lines 398-411).  `dir` is
`Path(DOWNLOAD_DIR).resolve()` as segments, `fs` the files on disk (as
resolved segment paths).  The handler first filters the in-memory history,
then performs the string-prefix containment check (403 on failure), then
unlinks the file if present. -/
def delete_file (dir : List String) (history : List HistoryEntry) (fs : List (List String))
    (filename : String) : DeleteResult :=
  let history2 := history.filter (fun h => h.filename != filename)
  let file_path := resolvedJoin dir filename
  if ! startswith (renderPath file_path) (renderPath dir) then
    { history := history2, fs := fs, response := .error 403 }
  else if file_path ∈ fs then
    { history := history2, fs := fs.erase file_path, response := .ok ("Removed " ++ filename) }
  else
    { history := history2, fs := fs, response := .ok ("Removed " ++ filename) }

/-- `download_file` (`main.py` lines 417-431): serve a file.  Returns the
path served on success, or the error status (403 path-escape, 410 gone). -/
def download_file (dir : List String) (fs : List (List String))
    (filename : String) : Except Nat (List String) :=
  let file_path := resolvedJoin dir filename
  if ! startswith (renderPath file_path) (renderPath dir) then .error 403
  else if file_path ∈ fs then .ok file_path
  else .error 410

/-!  ## Submission and polling  -/

/-- Result of the `POST /api/download` handler as seen at the moment the
response is returned: the response itself and the registry contents at that
moment. -/
structure SubmitResult where
  response : Except Nat String
  tasksAfter : String → Option TaskRecord

/-- Python `str.strip()`: remove leading and trailing whitespace. -/
def pyStrip (s : String) : String :=
  String.mk (((s.data.dropWhile Char.isWhitespace).reverse.dropWhile Char.isWhitespace).reverse)

/-- `start_download` (`main.py` lines 349-362).  After validating the URL
and mode it draws a fresh `task_id` and calls `executor.submit`, which only
enqueues `_run_download_task`; the handler performs no registry write of its
own, so the registry visible when the response returns is the input
registry unchanged. -/
def start_download (tasks : String → Option TaskRecord) (url mode task_id : String) :
    SubmitResult :=
  if pyStrip url = "" then { response := .error 400, tasksAfter := tasks }
  else if mode ≠ "video" ∧ mode ≠ "audio" then { response := .error 400, tasksAfter := tasks }
  else { response := .ok task_id, tasksAfter := tasks }

/-- `get_status` (`main.py` lines 368-374): poll a task. -/
def get_status (tasks : String → Option TaskRecord) (task_id : String) :
    Except Nat TaskRecord :=
  match tasks task_id with
  | none => .error 404
  | some r => .ok r

/-!  ## Concrete events and records used to evaluate the code  -/

/-- A `downloading` event with `downloaded_bytes = 50`, `total_bytes = 100`. -/
def evTotal100 : RawEvent :=
  { status := "downloading", downloaded_bytes := some 50, total_bytes := some 100 }

/-- A `downloading` event carrying neither `total_bytes` nor an estimate. -/
def evNoTotal : RawEvent :=
  { status := "downloading", downloaded_bytes := some 80 }

/-- A later `downloading` event with a smaller byte count
(`downloaded_bytes = 10`, `total_bytes = 100`). -/
def evTotal100Less : RawEvent :=
  { status := "downloading", downloaded_bytes := some 10, total_bytes := some 100 }

/-- A `finished` event carrying a concrete filename. -/
def evFinishedA : RawEvent := { status := "finished", filename := some "a.mp4" }

/-- The record the hook writes for `evTotal100`. -/
def recProgress50 : TaskRecord :=
  { status := "downloading", progress := 50, speed := none, eta := none,
    filename := some "output", error := none }

/-- The record the hook writes for `evNoTotal`. -/
def recProgress0 : TaskRecord :=
  { status := "downloading", progress := 0, speed := none, eta := none,
    filename := some "output", error := none }

/-- The record the hook writes for `evTotal100Less`. -/
def recProgress10 : TaskRecord :=
  { status := "downloading", progress := 10, speed := none, eta := none,
    filename := some "output", error := none }

/-- The record the hook writes for `evFinishedA`. -/
def recProcessingA : TaskRecord :=
  { status := "processing", progress := 999/10, speed := none, eta := none,
    filename := some "a.mp4", error := none }

/-!  ## Lemmas  -/

theorem ratFloor_eq (q : ℚ) : ratFloor q = ⌊q⌋ := Rat.floor_def.symm

/-- Rounding helper: `rhe q = ⌊q⌋` when the fractional part is below a half. -/
theorem rhe_eq_of_lt_half (q : ℚ) (f : ℤ) (h1 : (f : ℚ) ≤ q) (h2 : q < (f : ℚ) + 1/2) :
    rhe q = f := by
  have hf : ⌊q⌋ = f := Int.floor_eq_iff.mpr ⟨h1, by linarith⟩
  simp only [rhe, ratFloor_eq, hf]
  rw [if_pos (by linarith)]

/-- Rounding helper: `rhe q = ⌊q⌋ + 1` when the fractional part is above a half. -/
theorem rhe_eq_of_half_lt (q : ℚ) (f : ℤ) (h1 : (f : ℚ) + 1/2 < q) (h2 : q < (f : ℚ) + 1) :
    rhe q = f + 1 := by
  have hf : ⌊q⌋ = f := Int.floor_eq_iff.mpr ⟨by linarith, h2⟩
  simp only [rhe, ratFloor_eq, hf]
  rw [if_neg (by linarith), if_pos (by linarith)]

/-- Round-half-even never rounds above an integer bound. -/
theorem rhe_le_int (q : ℚ) (n : ℤ) (h : q ≤ (n : ℚ)) : rhe q ≤ n := by
  have hfl : (⌊q⌋ : ℚ) ≤ q := Int.floor_le q
  have hfn : ⌊q⌋ ≤ n := Int.floor_le_iff.mpr (by linarith)
  simp only [rhe, ratFloor_eq]
  split_ifs with h1 h2 h3
  · exact hfn
  · have hq : (⌊q⌋ : ℚ) + 1/2 ≤ (n : ℚ) := by linarith
    have : (⌊q⌋ : ℚ) < (n : ℚ) := by linarith
    have : ⌊q⌋ < n := by exact_mod_cast this
    omega
  · exact hfn
  · have hq : (⌊q⌋ : ℚ) + 1/2 ≤ (n : ℚ) := by linarith
    have : (⌊q⌋ : ℚ) < (n : ℚ) := by linarith
    have : ⌊q⌋ < n := by exact_mod_cast this
    omega

/-- Round-half-even never rounds below an integer bound. -/
theorem int_le_rhe (q : ℚ) (n : ℤ) (h : (n : ℚ) ≤ q) : n ≤ rhe q := by
  have hfn : n ≤ ⌊q⌋ := Int.le_floor.mpr h
  simp only [rhe, ratFloor_eq]
  split_ifs <;> omega

/-- `round(·, 1)` preserves an upper bound that is a multiple of one tenth. -/
theorem round1_le_tenth (q : ℚ) (n : ℤ) (h : q ≤ (n : ℚ) / 10) : round1 q ≤ (n : ℚ) / 10 := by
  have h10 : 10 * q ≤ (n : ℚ) := by linarith
  have := rhe_le_int (10 * q) n h10
  have hc : (rhe (10 * q) : ℚ) ≤ (n : ℚ) := by exact_mod_cast this
  unfold round1
  linarith

/-- A record produced by the progress hook carries status `downloading` or
`processing`. -/
theorem hook_status (ev : RawEvent) (r : TaskRecord) (h : _progress_hook ev = some r) :
    r.status = "downloading" ∨ r.status = "processing" := by
  unfold _progress_hook at h
  split_ifs at h
  · left
    simp only [Option.some.injEq] at h
    rw [← h]
  · right
    simp only [Option.some.injEq] at h
    rw [← h]

/-- Unfolding of the hook on a `downloading` event. -/
theorem hook_eval_downloading (ev : RawEvent) (h : ev.status = "downloading") :
    _progress_hook ev = some
      { status := "downloading",
        progress := round1
          (if 0 < pyTotal ev then min (pyDownloaded ev / pyTotal ev * 100) (999/10) else 0),
        speed := match ev.speed with
          | some s => if 0 < s then some (_fmt_bytes (some (pyInt s)) ++ "/s") else none
          | none => none,
        eta := match ev.eta with
          | some e => some (pad2 (pyInt e / 60) ++ ":" ++ pad2 (pyInt e % 60))
          | none => none,
        filename := some (hookFilename ev), error := none } := by
  unfold _progress_hook
  rw [if_pos h]

/-- Unfolding of the hook on a `finished` event. -/
theorem hook_eval_finished (ev : RawEvent) (h : ev.status = "finished") :
    _progress_hook ev = some
      { status := "processing", progress := 999/10, speed := none, eta := none,
        filename := some (hookFilename ev), error := none } := by
  unfold _progress_hook
  rw [if_neg (by rw [h]; decide), if_pos h]

/-- `round(0.0, 1) = 0.0`. -/
theorem round1_zero : round1 0 = 0 := by
  have h : rhe ((10 : ℚ) * 0) = 0 := by
    have := rhe_eq_of_lt_half ((10 : ℚ) * 0) 0 (by norm_num) (by norm_num)
    exact this
  rw [round1, h]
  norm_num

/-- Any record the hook writes has progress at most `99.9`. -/
theorem hook_progress_bound (ev : RawEvent) (r : TaskRecord) (h : _progress_hook ev = some r) :
    r.progress ≤ 999/10 := by
  unfold _progress_hook at h
  split_ifs at h with h1 h2
  · simp only [Option.some.injEq] at h
    rw [← h]
    show round1 _ ≤ _
    have hb : (if 0 < pyTotal ev then min (pyDownloaded ev / pyTotal ev * 100) (999/10) else 0)
        ≤ (999 : ℚ)/10 := by
      split_ifs
      · exact min_le_right _ _
      · norm_num
    have := round1_le_tenth
      (if 0 < pyTotal ev then min (pyDownloaded ev / pyTotal ev * 100) (999/10) else 0) 999
      (by push_cast; linarith)
    push_cast at this
    linarith
  · simp only [Option.some.injEq] at h
    rw [← h]

/-- C5: across any sequence of insertions the history log never exceeds 100
entries, is ordered most-recently-added first (it equals the reversed
insertion sequence truncated to 100), so an insertion beyond the cap evicts
exactly the oldest entry and leaves all others unchanged. -/
theorem history_cap_order_eviction (ops : List (String × ℤ × String)) :
    (historyFold ops).length ≤ 100 ∧
    historyFold ops =
      ((ops.map (fun op => mkHistoryEntry op.1 op.2.1 op.2.2)).reverse).take 100 := by
  induction ops using List.reverseRecOn with
  | nil => exact ⟨by simp [historyFold], by simp [historyFold]⟩
  | append_singleton l op ih =>
    obtain ⟨ihlen, iheq⟩ := ih
    have hstep : historyFold (l ++ [op]) =
        _add_to_history (historyFold l) op.1 op.2.1 op.2.2 := by
      simp [historyFold, List.foldl_append]
    have htar : ((l ++ [op]).map (fun op => mkHistoryEntry op.1 op.2.1 op.2.2)).reverse =
        mkHistoryEntry op.1 op.2.1 op.2.2 ::
          (l.map (fun op => mkHistoryEntry op.1 op.2.1 op.2.2)).reverse := by
      simp
    set X := (l.map (fun op => mkHistoryEntry op.1 op.2.1 op.2.2)).reverse with hX
    set e := mkHistoryEntry op.1 op.2.1 op.2.2 with he
    rw [hstep, htar, List.take_succ_cons]
    unfold _add_to_history
    by_cases hlen : (historyFold l).length ≤ 99
    · rw [if_neg (by simp; omega)]
      constructor
      · simp
        omega
      · rw [iheq]
        have hXlen : X.length ≤ 99 := by
          have : (X.take 100).length ≤ 99 := by rw [← iheq]; exact hlen
          simp at this
          omega
        rw [List.take_of_length_le (by omega), List.take_of_length_le (by omega)]
    · have hlen100 : (historyFold l).length = 100 := by omega
      rw [if_pos (by simp; omega)]
      constructor
      · simp [List.length_dropLast]
        omega
      · rw [List.dropLast_eq_take]
        simp only [List.length_cons, hlen100]
        rw [iheq, List.take_succ_cons, List.take_take]
        norm_num

/-- C7: on any failure raised by the fetch call or the post-fetch scan,
the worker's final registry write (the `except` clause) sets status
`error`, progress `0`, clears speed/eta/filename, and stores the failure
message verbatim in `error`; the worker function is total, so no exception
escapes it. -/
theorem worker_failure_final_write (events : List RawEvent) (msg : String) :
    (_run_download_task events (FetchOutcome.failure msg)).getLast? =
      some { status := "error", progress := 0, speed := none, eta := none,
             filename := none, error := some msg } := by
  unfold _run_download_task
  rw [← List.cons_append, List.getLast?_concat]
  rfl

/-- C9: the history-delete handler filters the history log before the
path-escape check, so entries matching the filename are removed (and no
matching entry survives) even when the handler then fails with 403; on
that 403 path the filesystem is untouched. -/
theorem delete_filters_history_before_check (dir : List String) (history : List HistoryEntry)
    (fs : List (List String)) (filename : String) :
    ((delete_file dir history fs filename).history =
      history.filter (fun h => h.filename != filename)) ∧
    (∀ h ∈ (delete_file dir history fs filename).history, h.filename ≠ filename) ∧
    ((delete_file dir history fs filename).response = Except.error 403 →
      (delete_file dir history fs filename).fs = fs) := by
  have heq : (delete_file dir history fs filename).history =
      history.filter (fun h => h.filename != filename) := by
    simp only [delete_file]
    split_ifs <;> rfl
  refine ⟨heq, ?_, ?_⟩
  · intro h hm
    rw [heq] at hm
    have := List.of_mem_filter hm
    simpa using this
  · intro hresp
    simp only [delete_file] at hresp ⊢
    split_ifs at hresp ⊢
    simp_all

/-- C9 witness: a traversal filename that triggers the 403 path still has
its history entry removed and the filesystem unchanged. -/
theorem delete_filters_history_before_check_witness :
    ((delete_file ["srv", "downloads"] [mkHistoryEntry "../../etc/passwd" 5 "t0"]
        [["srv", "downloads", "a.mp4"]] "../../etc/passwd").history =
      [mkHistoryEntry "../../etc/passwd" 5 "t0"].filter
        (fun h => h.filename != "../../etc/passwd")) ∧
    (∀ h ∈ (delete_file ["srv", "downloads"] [mkHistoryEntry "../../etc/passwd" 5 "t0"]
        [["srv", "downloads", "a.mp4"]] "../../etc/passwd").history,
      h.filename ≠ "../../etc/passwd") ∧
    ((delete_file ["srv", "downloads"] [mkHistoryEntry "../../etc/passwd" 5 "t0"]
        [["srv", "downloads", "a.mp4"]] "../../etc/passwd").response = Except.error 403 →
      (delete_file ["srv", "downloads"] [mkHistoryEntry "../../etc/passwd" 5 "t0"]
        [["srv", "downloads", "a.mp4"]] "../../etc/passwd").fs =
        [["srv", "downloads", "a.mp4"]]) :=
  delete_filters_history_before_check ["srv", "downloads"]
    [mkHistoryEntry "../../etc/passwd" 5 "t0"] [["srv", "downloads", "a.mp4"]]
    "../../etc/passwd"

/-- C1 counterexample: a poll issued after the submit response returns but
before the background worker's first write finds no registry entry and gets
a 404, contradicting the claim that the `pending` record is written
synchronously before the job is handed to the worker. -/
theorem poll_after_submit_404 :
    (start_download (fun _ => none) "https://youtu.be/abc" "video" "t1").response =
      Except.ok "t1" ∧
    get_status
      ((start_download (fun _ => none) "https://youtu.be/abc" "video" "t1").tasksAfter)
      "t1" = Except.error 404 := by
  exact ⟨rfl, rfl⟩

/-- C1 amended: the submit handler performs no registry write of its own
(the registry visible when the response returns is unchanged); the
`pending` record (progress 0, all optional fields cleared) is instead the
background worker's first registry write, before any progress event is
processed. -/
theorem pending_is_first_worker_write (tasks : String → Option TaskRecord)
    (url mode task_id : String) (events : List RawEvent) (outcome : FetchOutcome) :
    (start_download tasks url mode task_id).tasksAfter = tasks ∧
    (_run_download_task events outcome).head? = some pendingRecord := by
  constructor
  · unfold start_download
    split_ifs <;> rfl
  · rfl

/-- C6: every status the worker or hook ever writes is one of the five
specified states, and a `done` or `error` record occurs only as the
worker's very last write, so the terminal statuses are never overwritten
by a later write of that task. -/
theorem terminal_statuses_final (events : List RawEvent) (outcome : FetchOutcome) :
    (∀ r ∈ _run_download_task events outcome,
        r.status = "pending" ∨ r.status = "downloading" ∨ r.status = "processing" ∨
          r.status = "done" ∨ r.status = "error") ∧
    (∀ (i : ℕ) (r : TaskRecord), (_run_download_task events outcome)[i]? = some r →
        r.status = "done" ∨ r.status = "error" →
        i = (_run_download_task events outcome).length - 1) := by
  constructor
  · intro r hr
    unfold _run_download_task at hr
    rcases List.mem_cons.mp hr with h | h
    · subst h; left; rfl
    · rcases List.mem_append.mp h with h | h
      · rcases List.mem_filterMap.mp h with ⟨ev, _, hev⟩
        rcases hook_status ev r hev with h1 | h1
        · right; left; exact h1
        · right; right; left; exact h1
      · have hr2 := List.mem_singleton.mp h
        subst hr2
        cases outcome with
        | success scan => right; right; right; left; rfl
        | failure msg => right; right; right; right; rfl
  · intro i r hget hterm
    unfold _run_download_task at hget ⊢
    cases i with
    | zero =>
      simp only [List.getElem?_cons_zero, Option.some.injEq] at hget
      subst hget
      rcases hterm with h | h <;> exact absurd h (by decide)
    | succ j =>
      rw [List.getElem?_cons_succ] at hget
      rw [List.getElem?_append] at hget
      by_cases hj : j < (events.filterMap _progress_hook).length
      · rw [if_pos hj] at hget
        have hmem : r ∈ events.filterMap _progress_hook := by
          exact List.getElem?_mem hget
        rcases List.mem_filterMap.mp hmem with ⟨ev, _, hev⟩
        rcases hook_status ev r hev with h1 | h1 <;>
          rcases hterm with h2 | h2 <;> (rw [h1] at h2; exact absurd h2 (by decide))
      · rw [if_neg hj] at hget
        push_neg at hj
        have hdiff : j - (events.filterMap _progress_hook).length = 0 := by
          by_contra hne
          rw [List.getElem?_eq_none (by simp; omega)] at hget
          exact Option.noConfusion hget
        simp only [List.length_cons, List.length_append, List.length_singleton,
          List.length_nil]
        omega

/-- C6 witness: for a run that fails immediately (no events), the error
record sits at index 1, which is indeed the last write. -/
theorem terminal_statuses_final_witness :
    (∀ r ∈ _run_download_task [] (FetchOutcome.failure "boom"),
        r.status = "pending" ∨ r.status = "downloading" ∨ r.status = "processing" ∨
          r.status = "done" ∨ r.status = "error") ∧
    1 = (_run_download_task [] (FetchOutcome.failure "boom")).length - 1 :=
  ⟨(terminal_statuses_final [] (FetchOutcome.failure "boom")).1,
    (terminal_statuses_final [] (FetchOutcome.failure "boom")).2 1
      { status := "error", progress := 0, speed := none, eta := none,
        filename := none, error := some "boom" }
      rfl (Or.inr rfl)⟩

/-- Evaluation of the hook at `evTotal100`: `50/100*100 = 50`, rounded. -/
theorem hook_evTotal100 : _progress_hook evTotal100 = some recProgress50 := by
  rw [hook_eval_downloading evTotal100 rfl]
  have hfn : hookFilename evTotal100 = "output" := by decide
  have hrhe : rhe (500 : ℚ) = 500 := rhe_eq_of_lt_half 500 500 (by norm_num) (by norm_num)
  have hp : round1 (if 0 < pyTotal evTotal100
      then min (pyDownloaded evTotal100 / pyTotal evTotal100 * 100) (999/10) else 0) = 50 := by
    have ht : pyTotal evTotal100 = 100 := by norm_num [pyTotal, pyOrQ, evTotal100]
    have hd : pyDownloaded evTotal100 = 50 := by norm_num [pyDownloaded, pyOrQ, evTotal100]
    rw [ht, hd, if_pos (by norm_num)]
    have hmin : min ((50 : ℚ) / 100 * 100) (999/10) = 50 := by
      rw [min_def]
      norm_num
    rw [hmin, round1]
    rw [show (10 : ℚ) * 50 = 500 by norm_num, hrhe]
    norm_num
  rw [hp, hfn]
  rfl

/-- Evaluation of the hook at `evNoTotal`: no total known, progress reset to 0. -/
theorem hook_evNoTotal : _progress_hook evNoTotal = some recProgress0 := by
  rw [hook_eval_downloading evNoTotal rfl]
  have hfn : hookFilename evNoTotal = "output" := by decide
  have hp : round1 (if 0 < pyTotal evNoTotal
      then min (pyDownloaded evNoTotal / pyTotal evNoTotal * 100) (999/10) else 0) = 0 := by
    have ht : pyTotal evNoTotal = 0 := by norm_num [pyTotal, pyOrQ, evNoTotal]
    rw [ht, if_neg (by norm_num)]
    exact round1_zero
  rw [hp, hfn]
  rfl

/-- Evaluation of the hook at `evTotal100Less`: `10/100*100 = 10`, rounded. -/
theorem hook_evTotal100Less : _progress_hook evTotal100Less = some recProgress10 := by
  rw [hook_eval_downloading evTotal100Less rfl]
  have hfn : hookFilename evTotal100Less = "output" := by decide
  have hrhe : rhe (100 : ℚ) = 100 := rhe_eq_of_lt_half 100 100 (by norm_num) (by norm_num)
  have hp : round1 (if 0 < pyTotal evTotal100Less
      then min (pyDownloaded evTotal100Less / pyTotal evTotal100Less * 100) (999/10) else 0)
      = 10 := by
    have ht : pyTotal evTotal100Less = 100 := by norm_num [pyTotal, pyOrQ, evTotal100Less]
    have hd : pyDownloaded evTotal100Less = 10 := by
      norm_num [pyDownloaded, pyOrQ, evTotal100Less]
    rw [ht, hd, if_pos (by norm_num)]
    have hmin : min ((10 : ℚ) / 100 * 100) (999/10) = 10 := by
      rw [min_def]
      norm_num
    rw [hmin, round1]
    rw [show (10 : ℚ) * 10 = 100 by norm_num, hrhe]
    norm_num
  rw [hp, hfn]
  rfl

/-- Evaluation of the hook at `evFinishedA`. -/
theorem hook_evFinishedA : _progress_hook evFinishedA = some recProcessingA := by
  rw [hook_eval_finished evFinishedA rfl]
  have hfn : hookFilename evFinishedA = "a.mp4" := by decide
  rw [hfn]
  rfl

/-- C2 (evaluation at the failing input): the containment check of the
delete and file-serving handlers is a string-prefix test on the rendered
paths, so a filename resolving into a sibling directory whose name extends
the output directory's name (`/srv/downloads` vs `/srv/downloads-x`) passes
the check although the resolved path is not within the output directory:
the delete handler answers `Removed ...` and unlinks the outside file
instead of rejecting with 403, and the file-serving handler serves it. -/
theorem prefix_check_admits_sibling_escape :
    isWithin ["srv", "downloads"]
      (resolvedJoin ["srv", "downloads"] "../downloads-x/secret") = false ∧
    (delete_file ["srv", "downloads"] [] [["srv", "downloads-x", "secret"]]
      "../downloads-x/secret").response = Except.ok "Removed ../downloads-x/secret" ∧
    (delete_file ["srv", "downloads"] [] [["srv", "downloads-x", "secret"]]
      "../downloads-x/secret").fs = [] ∧
    download_file ["srv", "downloads"] [["srv", "downloads-x", "secret"]]
      "../downloads-x/secret" = Except.ok ["srv", "downloads-x", "secret"] :=
  ⟨rfl, rfl, rfl, rfl⟩

/-- C3 counterexample: a `downloading` event without a byte total does not
leave the stored progress at the last known value — the hook's full
overwrite resets it to 0 (here: from 50 to 0), which is also a regression. -/
theorem missing_total_resets_progress :
    (runHook none [evTotal100]).map (fun r => r.progress) = some 50 ∧
    (runHook none [evTotal100, evNoTotal]).map (fun r => r.progress) = some 0 := by
  constructor
  · simp [runHook, applyHook, hook_evTotal100, recProgress50]
  · simp [runHook, applyHook, hook_evTotal100, hook_evNoTotal, recProgress0]

/-- C3 amended: for a `downloading` event the stored progress is
`round(min(downloaded/total * 100, 99.9), 1)` when `total > 0`, and is
reset to `0` (not left at the last known value) when `total <= 0`; in
either case it never exceeds 99.9. -/
theorem downloading_progress_formula (ev : RawEvent) (r : TaskRecord)
    (h : _progress_hook ev = some r) (hst : ev.status = "downloading") :
    r.progress ≤ 999/10 ∧
    (0 < pyTotal ev →
      r.progress = round1 (min (pyDownloaded ev / pyTotal ev * 100) (999/10))) ∧
    (pyTotal ev ≤ 0 → r.progress = 0) := by
  have hb := hook_progress_bound ev r h
  rw [hook_eval_downloading ev hst] at h
  simp only [Option.some.injEq] at h
  refine ⟨hb, ?_, ?_⟩
  · intro ht
    rw [← h]
    show round1 _ = _
    rw [if_pos ht]
  · intro ht
    rw [← h]
    show round1 _ = _
    rw [if_neg (not_lt.mpr ht)]
    exact round1_zero

/-- C3 witness: the formula evaluated on a concrete event with
`downloaded = 50`, `total = 100`. -/
theorem downloading_progress_formula_witness :
    recProgress50.progress ≤ 999/10 ∧
    (0 < pyTotal evTotal100 →
      recProgress50.progress =
        round1 (min (pyDownloaded evTotal100 / pyTotal evTotal100 * 100) (999/10))) ∧
    (pyTotal evTotal100 ≤ 0 → recProgress50.progress = 0) :=
  downloading_progress_formula evTotal100 recProgress50 hook_evTotal100 rfl

/-- C4 counterexample: two successive `downloading` events with a valid
total produce strictly decreasing stored progress values (50 then 10), so
progress observed across successive polls of a single task is not
non-decreasing. -/
theorem progress_not_monotone :
    ([evTotal100, evTotal100Less].filterMap _progress_hook).map
      (fun r => (r.status, r.progress)) =
      [("downloading", (50 : ℚ)), ("downloading", 10)] ∧
    ¬ ((50 : ℚ) ≤ 10) := by
  constructor
  · simp [List.filterMap_cons, hook_evTotal100, hook_evTotal100Less, recProgress50,
      recProgress10]
  · norm_num

/-- C4 amended: every record with status `downloading` that the worker (via
the hook) ever stores has progress at most 99.9 — but monotonicity does not
hold (see the counterexample). -/
theorem downloading_progress_bounded (events : List RawEvent) (outcome : FetchOutcome)
    (r : TaskRecord) (hr : r ∈ _run_download_task events outcome)
    (hst : r.status = "downloading") : r.progress ≤ 999/10 := by
  unfold _run_download_task at hr
  rcases List.mem_cons.mp hr with h | h
  · subst h
    exact absurd hst (by decide)
  · rcases List.mem_append.mp h with h | h
    · rcases List.mem_filterMap.mp h with ⟨ev, _, hev⟩
      exact hook_progress_bound ev r hev
    · have hr2 := List.mem_singleton.mp h
      subst hr2
      cases outcome with
      | success scan => simp [doneRecord] at hst
      | failure msg => simp [errorRecord] at hst

/-- C4 witness: the bound instantiated on a concrete run storing progress
50 while downloading. -/
theorem downloading_progress_bounded_witness : recProgress50.progress ≤ 999/10 :=
  downloading_progress_bounded [evTotal100] (FetchOutcome.success none) recProgress50
    (by simp [_run_download_task, List.filterMap_cons, hook_evTotal100]) rfl

/-- C10 counterexample: a `downloading` event whose filename ends in a path
separator is truthy, so the `or`-chain keeps it, and `os.path.basename`
maps it to the empty string: the stored record's filename is `""`, not a
non-empty name. -/
theorem trailing_slash_gives_empty_filename :
    (_progress_hook { status := "downloading", filename := some "clip/" }).map
      (fun r => r.filename) = some (some "") := by
  rw [hook_eval_downloading _ rfl]
  have hfn : hookFilename { status := "downloading", filename := some "clip/" } = "" := by
    decide
  simp [hfn]

/-- C10 amended: every record the hook writes (phases `downloading` and
`finished`) has its filename field set to
`basename(d.filename or info._filename or "output")` — always present, and
equal to the placeholder `"output"` when the event carries no filename, but
possibly the empty string when the carried filename ends in a slash. -/
theorem hook_filename_always_set (ev : RawEvent) (r : TaskRecord)
    (h : _progress_hook ev = some r) :
    r.filename = some (hookFilename ev) ∧
    (ev.filename = none → ev.info_filename = none → r.filename = some "output") := by
  have hfn : r.filename = some (hookFilename ev) := by
    unfold _progress_hook at h
    split_ifs at h <;> (simp only [Option.some.injEq] at h; rw [← h])
  refine ⟨hfn, fun h1 h2 => ?_⟩
  rw [hfn]
  unfold hookFilename pyOrS
  rw [h1, h2]
  decide

/-- C10 witness: a `finished` event carrying `a.mp4` stores exactly that
base name. -/
theorem hook_filename_always_set_witness :
    recProcessingA.filename = some (hookFilename evFinishedA) ∧
    (evFinishedA.filename = none → evFinishedA.info_filename = none →
      recProcessingA.filename = some "output") :=
  hook_filename_always_set evFinishedA recProcessingA hook_evFinishedA

/-- One unfolding of the byte-format loop at fuel 4. -/
theorem fmtLoop4 (v : ℚ) (i : ℕ) :
    fmtLoop 4 v i = if 1024 ≤ v ∧ i < 4 then fmtLoop 3 (v / 1024) (i + 1) else (v, i) := rfl

/-- One unfolding of the byte-format loop at fuel 3. -/
theorem fmtLoop3 (v : ℚ) (i : ℕ) :
    fmtLoop 3 v i = if 1024 ≤ v ∧ i < 4 then fmtLoop 2 (v / 1024) (i + 1) else (v, i) := rfl

/-- One unfolding of the byte-format loop at fuel 2. -/
theorem fmtLoop2 (v : ℚ) (i : ℕ) :
    fmtLoop 2 v i = if 1024 ≤ v ∧ i < 4 then fmtLoop 1 (v / 1024) (i + 1) else (v, i) := rfl

/-- One unfolding of the byte-format loop at fuel 1. -/
theorem fmtLoop1 (v : ℚ) (i : ℕ) :
    fmtLoop 1 v i = if 1024 ≤ v ∧ i < 4 then fmtLoop 0 (v / 1024) (i + 1) else (v, i) := rfl

/-- The byte-format loop at fuel 0 returns its state. -/
theorem fmtLoop0 (v : ℚ) (i : ℕ) : fmtLoop 0 v i = (v, i) := rfl

/-- `int()` of an integer-valued rational. -/
theorem pyInt_intCast (n : ℤ) : pyInt ((n : ℤ) : ℚ) = n := by
  unfold pyInt
  split_ifs with h
  · rw [ratFloor_eq]
    exact Int.floor_intCast n
  · rw [ratFloor_eq, show (-((n : ℤ) : ℚ)) = (((-n : ℤ)) : ℚ) by push_cast; ring,
      Int.floor_intCast]
    ring

/-- Characterization of the format loop: for a size in the `k`-th tier
(`k ≤ 4`), the loop divides exactly `k` times. -/
theorem fmt_pair_eq (n : ℤ) (k : ℕ) (hk : k ≤ 4) (hlo : (1024 : ℤ)^k ≤ n)
    (hhi : n < 1024^(k + 1)) : fmt_pair n = ((n : ℚ) / 1024^k, k) := by
  have hlo' : ((1024 : ℚ))^k ≤ (n : ℚ) := by exact_mod_cast hlo
  have hhi' : ((n : ℚ)) < 1024^(k + 1) := by exact_mod_cast hhi
  unfold fmt_pair
  interval_cases k
  · norm_num at hhi'
    rw [fmtLoop4, if_neg (by rintro ⟨hc, -⟩; linarith)]
    norm_num
  · norm_num at hlo' hhi'
    have b1 : (1024 : ℚ) ≤ (n : ℚ) := by linarith
    have b2 : (n : ℚ) / 1024 < 1024 := by
      rw [div_lt_iff (by norm_num)]
      linarith
    rw [fmtLoop4, if_pos ⟨b1, by norm_num⟩,
      fmtLoop3, if_neg (by rintro ⟨hc, -⟩; exact absurd hc (not_le.mpr b2))]
    norm_num
  · norm_num at hlo' hhi'
    have b1 : (1024 : ℚ) ≤ (n : ℚ) := by linarith
    have b2 : (1024 : ℚ) ≤ (n : ℚ) / 1024 := by
      rw [le_div_iff (by norm_num)]
      linarith
    have b3 : (n : ℚ) / 1024 / 1024 < 1024 := by
      rw [div_div, div_lt_iff (by norm_num)]
      linarith
    rw [fmtLoop4, if_pos ⟨b1, by norm_num⟩, fmtLoop3, if_pos ⟨b2, by norm_num⟩,
      fmtLoop2, if_neg (by rintro ⟨hc, -⟩; exact absurd hc (not_le.mpr b3))]
    rw [div_div]
    norm_num
  · norm_num at hlo' hhi'
    have b1 : (1024 : ℚ) ≤ (n : ℚ) := by linarith
    have b2 : (1024 : ℚ) ≤ (n : ℚ) / 1024 := by
      rw [le_div_iff (by norm_num)]
      linarith
    have b3 : (1024 : ℚ) ≤ (n : ℚ) / 1024 / 1024 := by
      rw [div_div, le_div_iff (by norm_num)]
      linarith
    have b4 : (n : ℚ) / 1024 / 1024 / 1024 < 1024 := by
      rw [div_div, div_div, div_lt_iff (by norm_num)]
      linarith
    rw [fmtLoop4, if_pos ⟨b1, by norm_num⟩, fmtLoop3, if_pos ⟨b2, by norm_num⟩,
      fmtLoop2, if_pos ⟨b3, by norm_num⟩,
      fmtLoop1, if_neg (by rintro ⟨hc, -⟩; exact absurd hc (not_le.mpr b4))]
    rw [div_div, div_div]
    norm_num
  · norm_num at hlo' hhi'
    have b1 : (1024 : ℚ) ≤ (n : ℚ) := by linarith
    have b2 : (1024 : ℚ) ≤ (n : ℚ) / 1024 := by
      rw [le_div_iff (by norm_num)]
      linarith
    have b3 : (1024 : ℚ) ≤ (n : ℚ) / 1024 / 1024 := by
      rw [div_div, le_div_iff (by norm_num)]
      linarith
    have b4 : (1024 : ℚ) ≤ (n : ℚ) / 1024 / 1024 / 1024 := by
      rw [div_div, div_div, le_div_iff (by norm_num)]
      linarith
    rw [fmtLoop4, if_pos ⟨b1, by norm_num⟩, fmtLoop3, if_pos ⟨b2, by norm_num⟩,
      fmtLoop2, if_pos ⟨b3, by norm_num⟩, fmtLoop1, if_pos ⟨b4, by norm_num⟩, fmtLoop0]
    rw [div_div, div_div, div_div]
    norm_num

/-- C8 counterexample: at `n = 1048575` (top of the KiB tier) the exact
value `1048575/1024 = 1023.999…` rounds at two decimals to `1024.00`, so
the renderer prints `"1024.00 KiB"` — a numeric value outside
`[1.00, 1024.00)`. -/
theorem renderer_boundary_rounds_to_1024 :
    ((1024 : ℤ)^1 ≤ 1048575 ∧ (1048575 : ℤ) < 1024^2) ∧
    (fmt_pair 1048575).2 = 1 ∧
    fmt_val 1048575 = 1024 ∧
    ¬ fmt_val 1048575 < 1024 ∧
    _fmt_bytes (some 1048575) = "1024.00 KiB" := by
  have hpair : fmt_pair 1048575 = (((1048575 : ℤ) : ℚ) / 1024^1, 1) :=
    fmt_pair_eq 1048575 1 (by norm_num) (by norm_num) (by norm_num)
  have hr : rhe ((26214375 : ℚ) / 256) = 102400 := by
    have h := rhe_eq_of_half_lt ((26214375 : ℚ) / 256) 102399
      (by norm_num) (by norm_num)
    rw [h]
    norm_num
  have hval : fmt_val 1048575 = 1024 := by
    rw [fmt_val, hpair]
    norm_num
    rw [hr]
    norm_num
  refine ⟨⟨by norm_num, by norm_num⟩, by rw [hpair], hval, by rw [hval]; norm_num, ?_⟩
  show _fmt_bytes (some 1048575) = _
  simp only [_fmt_bytes]
  rw [if_neg (by norm_num), show fmtLoop 4 ((1048575 : ℤ) : ℚ) 0
      = (((1048575 : ℤ) : ℚ) / 1024^1, 1) from hpair]
  have h2 : fmt2 (((1048575 : ℤ) : ℚ) / 1024^1) = "1024.00" := by
    simp only [fmt2]
    rw [show (100 : ℚ) * (((1048575 : ℤ) : ℚ) / 1024^1) = 26214375 / 256 by norm_num, hr]
    decide
  simp only [h2]
  decide

/-- C8 amended: for `1024^k ≤ n < 1024^(k+1)` with `k ≤ 4` the renderer
selects the `k`-th unit of B/KiB/MiB/GiB/TiB; for `k = 0` it prints `n`
itself with unit "B", and for `k ≥ 1` it prints the two-decimal rounding of
`n / 1024^k`, a value in `[1.00, 1024.00]` — the upper end `1024.00` is
attainable by rounding (see the counterexample), so the claimed half-open
interval `[1.00, 1024.00)` must be widened to the closed one. -/
theorem renderer_tier_value (n : ℤ) (k : ℕ) (hk : k ≤ 4) (hlo : (1024 : ℤ)^k ≤ n)
    (hhi : n < 1024^(k + 1)) :
    (fmt_pair n).2 = k ∧
    (k = 0 → fmt_val n = (n : ℚ) ∧
      _fmt_bytes (some n) = toString n ++ " " ++ "B") ∧
    (1 ≤ k → ((1 : ℚ) ≤ fmt_val n ∧ fmt_val n ≤ 1024) ∧
      _fmt_bytes (some n) = fmt2 ((n : ℚ) / 1024^k) ++ " " ++ units.getD k "") := by
  have hpair := fmt_pair_eq n k hk hlo hhi
  have hn0 : (0 : ℤ) ≤ n := le_trans (by positivity) hlo
  refine ⟨by rw [hpair], ?_, ?_⟩
  · rintro rfl
    constructor
    · rw [fmt_val, hpair]
      norm_num [pyInt_intCast]
    · simp only [_fmt_bytes]
      rw [if_neg (by omega), show fmtLoop 4 ((n : ℤ) : ℚ) 0
          = (((n : ℤ) : ℚ) / 1024^(0 : ℕ), 0) from hpair]
      norm_num [pyInt_intCast]
      rfl
  · intro hk1
    have hpow : (0 : ℚ) < 1024^k := by positivity
    have hv1 : (1 : ℚ) ≤ (n : ℚ) / 1024^k := by
      rw [le_div_iff₀ hpow]
      have h := hlo
      have : ((1024 : ℤ)^k : ℚ) ≤ ((n : ℤ) : ℚ) := by exact_mod_cast h
      push_cast at this
      linarith
    have hv2 : (n : ℚ) / 1024^k < 1024 := by
      rw [div_lt_iff₀ hpow]
      have : ((n : ℤ) : ℚ) < ((1024 : ℤ)^(k + 1) : ℚ) := by exact_mod_cast hhi
      push_cast at this
      rw [pow_succ] at this
      linarith
    have hr1 : (100 : ℤ) ≤ rhe (100 * ((n : ℚ) / 1024^k)) :=
      int_le_rhe _ 100 (by push_cast; linarith)
    have hr2 : rhe (100 * ((n : ℚ) / 1024^k)) ≤ 102400 :=
      rhe_le_int _ 102400 (by push_cast; linarith)
    have hkne : ¬ k = 0 := by omega
    have hval : fmt_val n = (rhe (100 * ((n : ℚ) / 1024^k)) : ℚ) / 100 := by
      rw [fmt_val, hpair]
      simp only [hkne, if_false]
    refine ⟨⟨?_, ?_⟩, ?_⟩
    · rw [hval]
      have : ((100 : ℤ) : ℚ) ≤ (rhe (100 * ((n : ℚ) / 1024^k)) : ℚ) := by
        exact_mod_cast hr1
      push_cast at this
      linarith
    · rw [hval]
      have : (rhe (100 * ((n : ℚ) / 1024^k)) : ℚ) ≤ ((102400 : ℤ) : ℚ) := by
        exact_mod_cast hr2
      push_cast at this
      linarith
    · simp only [_fmt_bytes]
      rw [if_neg (by omega), show fmtLoop 4 ((n : ℤ) : ℚ) 0
          = (((n : ℤ) : ℚ) / 1024^k, k) from hpair]
      simp only [hkne, if_false]

/-- C8 witness: `n = 1536` sits in the KiB tier and renders as the
two-decimal value `1536/1024 = 1.50` with unit KiB. -/
theorem renderer_tier_value_witness :
    (fmt_pair 1536).2 = 1 ∧
    ((1 : ℕ) = 0 → fmt_val 1536 = ((1536 : ℤ) : ℚ) ∧
      _fmt_bytes (some 1536) = toString (1536 : ℤ) ++ " " ++ "B") ∧
    (1 ≤ 1 → ((1 : ℚ) ≤ fmt_val 1536 ∧ fmt_val 1536 ≤ 1024) ∧
      _fmt_bytes (some 1536) = fmt2 (((1536 : ℤ) : ℚ) / 1024^(1 : ℕ)) ++ " " ++
        units.getD 1 "") :=
  renderer_tier_value 1536 1 (by norm_num) (by norm_num) (by norm_num)
